import Mathlib

/-!
Verification of the canvas-image pixel-buffer library (imshvc/canvas-image).

The repository ships several variants of the same design (a `Framebuffer`
class, a `Framebuffer` object factory, and the repository's own `CanvasImage`
object factory, version 20250407).  The definitions below are a shallow
embedding of the `CanvasImage` variant (`src/lib/framebuffer.js`, the
`CanvasImage.*` functions), which is this repository's current code; the other
variants are behaviourally identical for everything proved here except where
noted in comments.

Modelling conventions:
* JS numbers holding integers are `Int`; the `|0` coercion is `toInt32`.
* `Uint8ClampedArray` (the `ImageData.data` buffer) is a `List Nat` of bytes.
  An indexed write clamps the value to [0,255] and is discarded when the
  index is out of bounds; an indexed read yields `Option Nat`, `none`
  standing for JS `undefined`.  These are the ECMAScript integer-indexed
  exotic object semantics.
* The canvas element is a `Surface` record; `putImageData` replaces its
  pixel contents.  `Date.now()` is threaded as an explicit `now : Nat`
  argument, and the factory counter `CanvasImage.count` is threaded as an
  explicit `count : Nat` argument returned incremented.
* Whether `canvas.getContext` succeeds is an environment fact, threaded as
  the `env : Bool` argument of `create`.
-/

namespace CanvasImage

/-- ECMAScript ToInt32: reduce an integer modulo 2^32 into [-2^31, 2^31).
This is what the JS `|0` coercion does to an integral number. -/
def toInt32 (n : Int) : Int :=
  let r := n % 4294967296
  if r < 2147483648 then r else r - 4294967296

/-- Uint8ClampedArray value conversion for integral values: clamp to [0,255]. -/
def clampByte (v : Int) : Nat :=
  if v < 0 then 0 else if 255 < v then 255 else v.toNat

/-- Indexed write into a Uint8ClampedArray: in-bounds writes store the clamped
value, out-of-bounds writes (negative or past the end) are discarded. -/
def tset (d : List Nat) (i : Int) (v : Int) : List Nat :=
  if 0 ≤ i ∧ i < (d.length : Int) then d.set i.toNat (clampByte v) else d

/-- Indexed read from a Uint8ClampedArray: `none` is JS `undefined`. -/
def tget (d : List Nat) (i : Int) : Option Nat :=
  if 0 ≤ i then d[i.toNat]? else none

/-- ImageData object: dimensions plus the RGBA byte buffer `data`. -/
structure ImageData where
  width : Int
  height : Int
  data : List Nat
  deriving Repr, DecidableEq

/-- Canvas element: the external drawable surface.  `pixels` is the contents
last written by `putImageData`. -/
structure Surface where
  width : Int
  height : Int
  pixels : List Nat
  deriving Repr, DecidableEq

/-- CanvasImage resource object, mirroring the fields assigned by
`CanvasImage.create`.  `context : Bool` records whether a 2D context was
obtained for the canvas; `container` is the id of the containing element. -/
structure Resource where
  id : Nat
  width : Int
  height : Int
  canvas : Option Surface
  context : Bool
  image : Option ImageData
  created : Nat
  updated : Nat
  path : Option String
  ready : Bool
  locked : Bool
  dirty : Bool
  error : Option String
  container : Option Nat
  spawned : Bool
  deriving Repr, DecidableEq

/-- CanvasImage.sync: `putImageData` the ImageData to the canvas, clear the
dirty bit, stamp `updated`.  The source throws when `context` is null; every
claim applies `sync` on resources that have a context, so the embedding
performs the normal (non-throwing) path. -/
def sync (ci : Resource) (now : Nat) : Resource :=
  let canvas :=
    match ci.canvas, ci.image with
    | some s, some img => some { s with pixels := img.data }
    | s, _ => s
  { ci with canvas := canvas, dirty := false, updated := now }

/-- CanvasImage.create: truncate the dimensions, allocate the resource with
`id` taken from the factory counter before validation, validate bounds,
create the canvas and context, allocate the white-filled ImageData and sync.
Returns the resource together with the incremented factory counter. -/
def create (env : Bool) (now count : Nat) (width height : Int) :
    Resource × Nat :=
  let width := toInt32 width
  let height := toInt32 height
  let ci : Resource :=
    { id := count, width := width, height := height, canvas := none,
      context := false, image := none, created := now, updated := 0,
      path := none, ready := true, locked := false, dirty := false,
      error := none, container := none, spawned := false }
  let count := count + 1
  if 0 ≥ width ∨ width > 8192 then
    ({ ci with error := some "bad width" }, count)
  else if 0 ≥ height ∨ height > 8192 then
    ({ ci with error := some "bad height" }, count)
  else
    let surf : Surface :=
      { width := width, height := height,
        pixels := List.replicate (width * height * 4).toNat 0 }
    let ci := { ci with canvas := some surf }
    if env = false then
      ({ ci with error := some "failed to create context" }, count)
    else
      let img : ImageData :=
        { width := width, height := height,
          data := List.replicate (width * height * 4).toNat 255 }
      let ci := { ci with context := true, image := some img }
      (sync ci now, count)

/-- CanvasImage.setColor: when not locked, truncate the coordinates, write the
three colour bytes at the flat offset `width*y*4 + x*4`, set the dirty bit.
The source throws when `image` is null; the claims only apply it to resources
holding an ImageData, where the embedding is exact. -/
def setColor (ci : Resource) (x y r g b : Int) : Resource :=
  if ci.locked then ci
  else
    let x := toInt32 x
    let y := toInt32 y
    let pos := ci.width * y * 4 + x * 4
    let image :=
      match ci.image with
      | some img =>
        let d := tset (tset (tset img.data (pos + 0) r) (pos + 1) g) (pos + 2) b
        some { img with data := d }
      | none => none
    { ci with image := image, dirty := true }

/-- CanvasImage.getColor: truncate the coordinates and read the three colour
bytes at the flat offset; out-of-bounds reads give `none` (undefined). -/
def getColor (ci : Resource) (x y : Int) : List (Option Nat) :=
  let x := toInt32 x
  let y := toInt32 y
  let pos := ci.width * y * 4 + x * 4
  match ci.image with
  | some img => [tget img.data (pos + 0), tget img.data (pos + 1),
                 tget img.data (pos + 2)]
  | none => []

/-- CanvasImage.setAlpha: when not locked, write the alpha byte at flat offset
plus 3 and set the dirty bit. -/
def setAlpha (ci : Resource) (x y a : Int) : Resource :=
  if ci.locked then ci
  else
    let x := toInt32 x
    let y := toInt32 y
    let pos := ci.width * y * 4 + x * 4
    let image :=
      match ci.image with
      | some img => some { img with data := tset img.data (pos + 3) a }
      | none => none
    { ci with image := image, dirty := true }

/-- CanvasImage.getAlpha: read the alpha byte at flat offset plus 3. -/
def getAlpha (ci : Resource) (x y : Int) : Option Nat :=
  let x := toInt32 x
  let y := toInt32 y
  let pos := ci.width * y * 4 + x * 4
  match ci.image with
  | some img => tget img.data (pos + 3)
  | none => none

/-- CanvasImage.lock. -/
def lock (ci : Resource) : Resource := { ci with locked := true }

/-- CanvasImage.unlock. -/
def unlock (ci : Resource) : Resource := { ci with locked := false }

/-- CanvasImage.spawn: `isElement` models `container instanceof Element`. -/
def spawn (ci : Resource) (container : Option Nat) (isElement : Bool) :
    Resource :=
  if ci.error ≠ none then ci
  else if container = none ∨ isElement = false then
    { ci with error := some "container not element" }
  else if ci.container ≠ none then
    { ci with error := some "resource already spawned" }
  else
    { ci with container := container, spawned := true }

/-- CanvasImage.despawn: `parentElement` models `canvas.parentElement`, the
defensive check against external detachment. -/
def despawn (ci : Resource) (parentElement : Option Nat) : Resource :=
  if ci.container = none then ci
  else if parentElement = none then ci
  else { ci with container := none, spawned := false }

/-- Loop body of CanvasImage.clear: `for (i = 0; i < data.length; i += 4)`
writing the three colour bytes of each pixel.  `fuel` bounds the number of
iterations; since `i` advances by 4 each step, `fuel = d.length` always
suffices. -/
def clearLoop (fuel : Nat) (d : List Nat) (r g b : Int) (i : Nat) :
    List Nat :=
  match fuel with
  | 0 => d
  | fuel + 1 =>
    if i < d.length then
      clearLoop fuel
        (tset (tset (tset d (i : Int) r) ((i : Int) + 1) g)
          ((i : Int) + 2) b) r g b (i + 4)
    else d

/-- CanvasImage.clear: when not locked, bulk-overwrite every pixel's RGB with
the given colour, leaving alpha bytes alone; neither dirty nor sync. -/
def clear (ci : Resource) (r g b : Int) : Resource :=
  if ci.locked then ci
  else
    match ci.image with
    | some img =>
        let d := clearLoop img.data.length img.data r g b 0
        { ci with image := some { img with data := d } }
    | none => ci

/-- Loop body of CanvasImage.clone: `for (i = 0; i < src.length; i += 4)`
copying all four channel bytes of each pixel from `src` into `dst`. -/
def cloneLoop (fuel : Nat) (src dst : List Nat) (i : Nat) : List Nat :=
  match fuel with
  | 0 => dst
  | fuel + 1 =>
    if i < src.length then
      cloneLoop fuel src
        (tset (tset (tset (tset dst (i : Int) ((tget src (i : Int)).getD 0))
          ((i : Int) + 1) ((tget src ((i : Int) + 1)).getD 0))
          ((i : Int) + 2) ((tget src ((i : Int) + 2)).getD 0))
          ((i : Int) + 3) ((tget src ((i : Int) + 3)).getD 0)) (i + 4)
    else dst

/-- CanvasImage.clone: create a fresh resource at the same dimensions, copy
every pixel's four channel bytes from the source, sync the clone. -/
def clone (ci : Resource) (env : Bool) (now count : Nat) : Resource × Nat :=
  let rc := create env now count ci.width ci.height
  let fb := rc.1
  let fb :=
    match ci.image, fb.image with
    | some src, some dimg =>
        let d := cloneLoop src.data.length src.data dimg.data 0
        { fb with image := some { dimg with data := d } }
    | _, _ => fb
  (sync fb now, rc.2)

/-- Channel-index computation of CanvasImage.getChannel: `channel |= 0`, then
clamp below at 0 and above at 3. -/
def chanIndex (channel : Int) : Int :=
  let channel := toInt32 channel
  let channel := if 0 > channel then 0 else channel
  if channel > 3 then 3 else channel

/-- Loop body of CanvasImage.getChannel: `for (i = 0; i < dst.length; i += 4)`
writing the source's selected-channel byte into the R, G and B bytes of the
destination. -/
def channelLoop (fuel : Nat) (src dst : List Nat) (sel : Int) (i : Nat) :
    List Nat :=
  match fuel with
  | 0 => dst
  | fuel + 1 =>
    if i < dst.length then
      channelLoop fuel src
        (tset (tset (tset dst (i : Int) ((tget src ((i : Int) + sel)).getD 0))
          ((i : Int) + 1) ((tget src ((i : Int) + sel)).getD 0))
          ((i : Int) + 2) ((tget src ((i : Int) + sel)).getD 0)) sel (i + 4)
    else dst

/-- CanvasImage.getChannel: clamp the channel index, create a fresh same-size
resource, write R=G=B = the source's selected-channel byte at every pixel
(alpha keeps the fresh resource's opaque default), sync. -/
def getChannel (ci : Resource) (channel : Int) (env : Bool) (now count : Nat) :
    Resource × Nat :=
  let sel := chanIndex channel
  let rc := create env now count ci.width ci.height
  let fb := rc.1
  let fb :=
    match ci.image, fb.image with
    | some src, some dimg =>
        let d := channelLoop dimg.data.length src.data dimg.data sel 0
        { fb with image := some { dimg with data := d } }
    | _, _ => fb
  (sync fb now, rc.2)

/-- CanvasImage.load, synchronous part: null path yields no resource; else
create a dummy resource, lock it, clear `ready`, record the path, and return
it (with the incremented counter) before any event fires. -/
def load (env : Bool) (now count : Nat) (path : Option String) :
    Option (Resource × Nat) :=
  match path with
  | none => none
  | some p =>
    let rc := create env now count 1 1
    let ci := lock rc.1
    let ci := { ci with ready := false, path := some p }
    some (ci, rc.2)

/-- Error-event listener of CanvasImage.load: record the fetch failure and
invoke the callback.  The returned Bool records that the callback was
invoked with the resource. -/
def load_onerror (ci : Resource) : Resource × Bool :=
  ({ ci with error := some "failed to load image" }, true)

/-- Load-event listener of CanvasImage.load: adopt the decoded dimensions,
resize the canvas, draw the image (an external surface effect), then try to
read the pixels back.  `readback` is the outcome of the guarded
`getImageData` call: on failure `ready` is cleared, `error` records the
exception message and the callback fires with the resource still locked; on
success the ImageData is adopted, the resource unlocked, the callback fired.
The returned Bool records that the callback was invoked. -/
def load_onload (ci : Resource) (imgW imgH : Int)
    (readback : Except String ImageData) : Resource × Bool :=
  let canvas :=
    match ci.canvas with
    | some s => some { s with width := imgW, height := imgH }
    | none => none
  let ci :=
    { ci with ready := true, canvas := canvas, width := imgW, height := imgH }
  match readback with
  | Except.error msg =>
      ({ ci with ready := false, error := some msg }, true)
  | Except.ok img => (unlock { ci with image := some img }, true)

/-- Terminal outcome of an issued load: the fetch fails, or the load event
fires with decoded dimensions and a read-back outcome. -/
inductive LoadOutcome where
  | fetchFail
  | loadEvent (imgW imgH : Int) (readback : Except String ImageData)

/-- Complete run of CanvasImage.load: the synchronous part followed by the
single terminal event.  Yields the final resource, whether the callback was
invoked, and the factory counter. -/
def load_run (env : Bool) (now count : Nat) (path : Option String)
    (out : LoadOutcome) : Option (Resource × Bool × Nat) :=
  match load env now count path with
  | none => none
  | some (ci, cnt) =>
    match out with
    | LoadOutcome.fetchFail =>
        let rb := load_onerror ci
        (some (rb.1, rb.2, cnt))
    | LoadOutcome.loadEvent w h rb =>
        let r := load_onload ci w h rb
        (some (r.1, r.2, cnt))

/-- Sequence of CanvasImage.create calls threading the factory counter. -/
def createSeq (env : Bool) (now count : Nat) (reqs : List (Int × Int)) :
    List Resource × Nat :=
  match reqs with
  | [] => ([], count)
  | (w, h) :: rest =>
    let rc := create env now count w h
    let rest := createSeq env now rc.2 rest
    (rc.1 :: rest.1, rest.2)

/-- Modelled from the spec: the channel-clamping rule as the spec words it
("channel clamped to [0,3]", "values outside [0,3] clamp to the nearest
bound"), with no prior 32-bit truncation.  It exists only to be compared
with the code's `chanIndex`. -/
def clampChannelSpec (c : Int) : Int :=
  if c < 0 then 0 else if 3 < c then 3 else c

/-! A heap of ImageData buffers.  JS `image.data` is a reference to a
mutable buffer; the pure `Resource` embedding cannot express that two
resources do or do not share one.  The `Heap`/`HRes` model makes buffer
identity explicit: resources hold a buffer id into the heap, `create`
allocates a fresh buffer, and the pixel operations read and write through
the id, exactly as the JS operations act through the `image.data`
reference.  It is used to state the buffer-independence half of the clone
contract. -/

structure Heap where
  bufs : List (List Nat)
  deriving Repr, DecidableEq

structure HRes where
  bufId : Nat
  width : Int
  height : Int
  deriving Repr, DecidableEq

/-- Read the buffer a resource's ImageData references. -/
def readBuf (hp : Heap) (bid : Nat) : List Nat := (hp.bufs[bid]?).getD []

/-- Overwrite the buffer a resource's ImageData references. -/
def writeBuf (hp : Heap) (bid : Nat) (d : List Nat) : Heap :=
  { bufs := hp.bufs.set bid d }

/-- Heap form of the success path of CanvasImage.create: `new ImageData`
allocates a fresh buffer (filled 255 by `fill`), never aliasing an existing
one. -/
def createH (hp : Heap) (w h : Int) : Heap × HRes :=
  ({ bufs := hp.bufs ++
      [List.replicate (toInt32 w * toInt32 h * 4).toNat 255] },
   { bufId := hp.bufs.length, width := toInt32 w, height := toInt32 h })

/-- Heap form of CanvasImage.clone: create a fresh same-size resource, then
run the copy loop from the source's buffer into the clone's buffer. -/
def cloneH (hp : Heap) (src : HRes) : Heap × HRes :=
  let a := createH hp src.width src.height
  let srcData := readBuf a.1 src.bufId
  let dstData := readBuf a.1 a.2.bufId
  (writeBuf a.1 a.2.bufId (cloneLoop srcData.length srcData dstData 0), a.2)

/-- Heap form of CanvasImage.setColor (already-unlocked resource). -/
def setColorH (hp : Heap) (r : HRes) (x y cr cg cb : Int) : Heap :=
  let pos := r.width * toInt32 y * 4 + toInt32 x * 4
  let d := readBuf hp r.bufId
  writeBuf hp r.bufId
    (tset (tset (tset d (pos + 0) cr) (pos + 1) cg) (pos + 2) cb)

/-- Heap form of CanvasImage.setAlpha (already-unlocked resource). -/
def setAlphaH (hp : Heap) (r : HRes) (x y a : Int) : Heap :=
  let pos := r.width * toInt32 y * 4 + toInt32 x * 4
  let d := readBuf hp r.bufId
  writeBuf hp r.bufId (tset d (pos + 3) a)

/-! Basic facts about the typed-array primitives. -/

theorem toInt32_eq_self (n : Int) (h0 : -2147483648 ≤ n)
    (h1 : n < 2147483648) : toInt32 n = n := by
  simp only [toInt32]
  split <;> omega

theorem clampByte_natCast (v : Nat) (h : v ≤ 255) :
    clampByte (v : Int) = v := by
  simp only [clampByte]
  split
  · omega
  · split <;> omega

theorem tset_length (d : List Nat) (i v : Int) :
    (tset d i v).length = d.length := by
  unfold tset
  split <;> simp

theorem tget_natCast (d : List Nat) (i : Nat) : tget d (i : Int) = d[i]? := by
  unfold tget
  simp

theorem tget_neg (d : List Nat) (i : Int) (h : i < 0) : tget d i = none := by
  unfold tget
  rw [if_neg]
  omega

theorem tget_ge (d : List Nat) (i : Int) (h : (d.length : Int) ≤ i) :
    tget d i = none := by
  unfold tget
  split
  · exact List.getElem?_eq_none (by omega)
  · rfl

theorem tset_oob (d : List Nat) (i v : Int)
    (h : i < 0 ∨ (d.length : Int) ≤ i) : tset d i v = d := by
  unfold tset
  rw [if_neg]
  omega

theorem tget_tset_self (d : List Nat) (i v : Int) (h0 : 0 ≤ i)
    (h1 : i < (d.length : Int)) :
    tget (tset d i v) i = some (clampByte v) := by
  unfold tget tset
  rw [if_pos (And.intro h0 h1), if_pos h0]
  exact List.getElem?_set_eq_of_lt _ (by omega)

theorem tget_tset_ne (d : List Nat) (i j v : Int) (h : i ≠ j) :
    tget (tset d i v) j = tget d j := by
  unfold tget tset
  split
  · rename_i hin
    split
    · rename_i hj
      exact List.getElem?_set_ne (by omega)
    · rfl
  · rfl

theorem tset_nat_get_self (d : List Nat) (i : Nat) (v : Int)
    (h : i < d.length) : (tset d (i : Int) v)[i]? = some (clampByte v) := by
  have := tget_tset_self d (i : Int) v (by omega) (by omega)
  rwa [tget_natCast] at this

theorem tset_nat_get_ne (d : List Nat) (i j : Nat) (v : Int) (h : i ≠ j) :
    (tset d (i : Int) v)[j]? = d[j]? := by
  have := tget_tset_ne d (i : Int) (j : Int) v (by omega)
  rwa [tget_natCast, tget_natCast] at this

theorem tset_nat_oob (d : List Nat) (i : Nat) (v : Int)
    (h : d.length ≤ i) : tset d (i : Int) v = d := by
  exact tset_oob d _ v (by omega)

theorem tset_getElem_int (d : List Nat) (k v : Int) (j : Nat) :
    (tset d k v)[j]? =
      if k = (j : Int) ∧ k < (d.length : Int) then some (clampByte v)
      else d[j]? := by
  unfold tset
  by_cases h : 0 ≤ k ∧ k < (d.length : Int)
  · rw [if_pos h, List.getElem?_set]
    by_cases hk : k = (j : Int)
    · rw [if_pos (show k.toNat = j by omega), if_pos (by omega),
        if_pos (And.intro hk h.2)]
    · rw [if_neg (show ¬k.toNat = j by omega), if_neg (by tauto)]
  · rw [if_neg h, if_neg (by omega)]

theorem clamp_tget_byte (src : List Nat) (k : Int) (j : Nat)
    (hk : k = (j : Int)) (hj : j < src.length) (hv : ∀ v ∈ src, v ≤ 255) :
    some (clampByte ((tget src k).getD 0)) = src[j]? := by
  subst hk
  rw [tget_natCast, List.getElem?_eq_getElem hj]
  simp only [Option.getD_some]
  rw [clampByte_natCast _ (hv _ (List.getElem_mem hj))]

/-! Characterizations of the three pixel loops. -/

theorem clearLoop_getElem (fuel : Nat) :
    ∀ (d : List Nat) (r g b : Int) (i j : Nat),
      d.length ≤ i + 4 * fuel → i % 4 = 0 →
      (clearLoop fuel d r g b i)[j]? =
        if i ≤ j ∧ j < d.length ∧ j % 4 ≠ 3 then
          some (if j % 4 = 0 then clampByte r
                else if j % 4 = 1 then clampByte g else clampByte b)
        else d[j]? := by
  induction fuel with
  | zero =>
    intro d r g b i j hfuel hi
    simp only [clearLoop]
    rw [if_neg (by omega)]
  | succ fuel ih =>
    intro d r g b i j hfuel hi
    simp only [clearLoop]
    by_cases hlt : i < d.length
    · rw [if_pos hlt,
        ih _ r g b (i + 4) j (by simp only [tset_length]; omega) (by omega)]
      simp only [tset_getElem_int, tset_length]
      split_ifs <;> first | rfl | omega
    · rw [if_neg hlt, if_neg (by omega)]

theorem cloneLoop_getElem (fuel : Nat) :
    ∀ (src dst : List Nat) (i j : Nat),
      src.length ≤ i + 4 * fuel → src.length = dst.length →
      (∀ v ∈ src, v ≤ 255) →
      (cloneLoop fuel src dst i)[j]? =
        if i ≤ j ∧ j < src.length then src[j]? else dst[j]? := by
  induction fuel with
  | zero =>
    intro src dst i j hfuel hsd hv
    simp only [cloneLoop]
    rw [if_neg (by omega)]
  | succ fuel ih =>
    intro src dst i j hfuel hsd hv
    simp only [cloneLoop]
    by_cases hlt : i < src.length
    · rw [if_pos hlt,
        ih _ _ (i + 4) j (by omega) (by simp only [tset_length]; omega) hv]
      simp only [tset_getElem_int, tset_length]
      split_ifs <;>
        first
        | rfl
        | omega
        | (exact clamp_tget_byte src _ j (by omega) (by omega) hv)
    · rw [if_neg hlt, if_neg (by omega)]

theorem channelLoop_getElem (fuel : Nat) :
    ∀ (src dst : List Nat) (sel : Int) (i j : Nat),
      dst.length ≤ i + 4 * fuel → i % 4 = 0 →
      (channelLoop fuel src dst sel i)[j]? =
        if i ≤ j ∧ j < dst.length ∧ j % 4 ≠ 3 then
          some (clampByte ((tget src (((4 * (j / 4) : Nat) : Int) + sel)).getD 0))
        else dst[j]? := by
  induction fuel with
  | zero =>
    intro src dst sel i j hfuel hi
    simp only [channelLoop]
    rw [if_neg (by omega)]
  | succ fuel ih =>
    intro src dst sel i j hfuel hi
    simp only [channelLoop]
    by_cases hlt : i < dst.length
    · rw [if_pos hlt,
        ih _ _ sel (i + 4) j (by simp only [tset_length]; omega) (by omega)]
      simp only [tset_getElem_int, tset_length]
      split_ifs <;>
        first
        | rfl
        | omega
        | (rw [show ((4 * (j / 4) : Nat) : Int) = (i : Int) by omega])
    · rw [if_neg hlt, if_neg (by omega)]

theorem clearLoop_length (fuel : Nat) :
    ∀ (d : List Nat) (r g b : Int) (i : Nat),
      (clearLoop fuel d r g b i).length = d.length := by
  induction fuel with
  | zero => intro d r g b i; rfl
  | succ fuel ih =>
    intro d r g b i
    simp only [clearLoop]
    split
    · rw [ih]
      simp only [tset_length]
    · rfl

theorem cloneLoop_length (fuel : Nat) :
    ∀ (src dst : List Nat) (i : Nat),
      (cloneLoop fuel src dst i).length = dst.length := by
  induction fuel with
  | zero => intro src dst i; rfl
  | succ fuel ih =>
    intro src dst i
    simp only [cloneLoop]
    split
    · rw [ih]
      simp only [tset_length]
    · rfl

theorem channelLoop_length (fuel : Nat) :
    ∀ (src dst : List Nat) (sel : Int) (i : Nat),
      (channelLoop fuel src dst sel i).length = dst.length := by
  induction fuel with
  | zero => intro src dst sel i; rfl
  | succ fuel ih =>
    intro src dst sel i
    simp only [channelLoop]
    split
    · rw [ih]
      simp only [tset_length]
    · rfl

theorem readBuf_writeBuf_ne (hp : Heap) (b b' : Nat) (d : List Nat)
    (h : b ≠ b') : readBuf (writeBuf hp b d) b' = readBuf hp b' := by
  simp only [readBuf, writeBuf]
  rw [List.getElem?_set_ne h]

/-! Helper facts about `create`. -/

theorem create_snd (env : Bool) (now count : Nat) (w h : Int) :
    (create env now count w h).2 = count + 1 := by
  simp only [create]
  split
  · rfl
  · split
    · rfl
    · split <;> rfl

theorem create_id (env : Bool) (now count : Nat) (w h : Int) :
    (create env now count w h).1.id = count := by
  simp only [create, sync]
  split
  · rfl
  · split
    · rfl
    · split <;> rfl

/-- Value of `create` on in-range dimensions in a working environment. -/
theorem create_ok (now count : Nat) (w h : Int) (hw1 : 1 ≤ w)
    (hw2 : w ≤ 8192) (hh1 : 1 ≤ h) (hh2 : h ≤ 8192) :
    create true now count w h =
      ({ id := count, width := w, height := h,
         canvas := some (Surface.mk w h (List.replicate (w * h * 4).toNat 255)),
         context := true,
         image := some (ImageData.mk w h (List.replicate (w * h * 4).toNat 255)),
         created := now, updated := now, path := none, ready := true,
         locked := false, dirty := false, error := none, container := none,
         spawned := false }, count + 1) := by
  have hw : toInt32 w = w := toInt32_eq_self w (by omega) (by omega)
  have hh : toInt32 h = h := toInt32_eq_self h (by omega) (by omega)
  simp only [create, sync, hw, hh]
  rw [if_neg (show ¬(0 ≥ w ∨ w > 8192) from by omega),
    if_neg (show ¬(0 ≥ h ∨ h > 8192) from by omega),
    if_neg (show ¬(true = false) from by simp)]

end CanvasImage

namespace CanvasImage

/-- Reading back the three bytes written by the `setColor` write sequence. -/
theorem tset3_read (d : List Nat) (p : Int) (r g b : Int)
    (h0 : 0 ≤ p) (h1 : p + 2 < (d.length : Int)) :
    tget (tset (tset (tset d (p + 0) r) (p + 1) g) (p + 2) b) (p + 0)
        = some (clampByte r) ∧
    tget (tset (tset (tset d (p + 0) r) (p + 1) g) (p + 2) b) (p + 1)
        = some (clampByte g) ∧
    tget (tset (tset (tset d (p + 0) r) (p + 1) g) (p + 2) b) (p + 2)
        = some (clampByte b) := by
  have L1 : ((tset d (p + 0) r).length : Int) = (d.length : Int) := by
    rw [tset_length]
  have L2 : ((tset (tset d (p + 0) r) (p + 1) g).length : Int) =
      (d.length : Int) := by
    rw [tset_length, tset_length]
  refine ⟨?_, ?_, ?_⟩
  · rw [tget_tset_ne (tset (tset d (p + 0) r) (p + 1) g) (p + 2) (p + 0) b
        (by omega),
      tget_tset_ne (tset d (p + 0) r) (p + 1) (p + 0) g (by omega),
      tget_tset_self d (p + 0) r (by omega) (by omega)]
  · rw [tget_tset_ne (tset (tset d (p + 0) r) (p + 1) g) (p + 2) (p + 1) b
        (by omega),
      tget_tset_self (tset d (p + 0) r) (p + 1) g (by omega) (by omega)]
  · rw [tget_tset_self (tset (tset d (p + 0) r) (p + 1) g) (p + 2) b
        (by omega) (by omega)]

/-- Claim C1: for every integer width w and height h with 1 ≤ w ≤ 8192 and
1 ≤ h ≤ 8192, and a working surface environment (`env = true`, so context
creation succeeds), `create` returns a resource with `error = none`, a pixel
buffer of length exactly w*h*4 with every byte equal to 255, `dirty = false`
and `updated > 0`. -/
theorem claim_C1 (now count : Nat) (w h : Int)
    (hw1 : 1 ≤ w) (hw2 : w ≤ 8192) (hh1 : 1 ≤ h) (hh2 : h ≤ 8192)
    (hnow : 0 < now) :
    (create true now count w h).1.error = none ∧
    (∃ img, (create true now count w h).1.image = some img ∧
      (img.data.length : Int) = w * h * 4 ∧ ∀ v ∈ img.data, v = 255) ∧
    (create true now count w h).1.dirty = false ∧
    0 < (create true now count w h).1.updated := by
  have hw : toInt32 w = w := toInt32_eq_self w (by omega) (by omega)
  have hh : toInt32 h = h := toInt32_eq_self h (by omega) (by omega)
  have hwh : 0 ≤ w * h := mul_nonneg (by omega) (by omega)
  simp only [create, hw, hh, sync]
  rw [if_neg (show ¬(0 ≥ w ∨ w > 8192) from by omega),
    if_neg (show ¬(0 ≥ h ∨ h > 8192) from by omega),
    if_neg (show ¬(true = false) from by simp)]
  refine ⟨rfl, ⟨_, rfl, ?_, fun v hv => List.eq_of_mem_replicate hv⟩, rfl, hnow⟩
  simp only [List.length_replicate]
  omega

/-- Claim C1 witness: instantiation at w = 2, h = 2, now = 1, count = 0. -/
theorem claim_C1_witness :
    (create true 1 0 2 2).1.error = none ∧
    (∃ img, (create true 1 0 2 2).1.image = some img ∧
      (img.data.length : Int) = 2 * 2 * 4 ∧ ∀ v ∈ img.data, v = 255) ∧
    (create true 1 0 2 2).1.dirty = false ∧
    0 < (create true 1 0 2 2).1.updated :=
  claim_C1 1 0 2 2 (by decide) (by decide) (by decide) (by decide) (by decide)

/-- Claim C4: when the truncated width or height lies outside [1, 8192],
`create` returns a resource whose error is the width-specific or
height-specific message, whose pixel buffer and surface handle are
uninitialized (`none`), and which carries the id taken from the factory
counter and the out-of-range truncated dimensions in its width/height
fields.  (This matches the repository's `CanvasImage.create`, which stores
the truncated dimensions before validating; the legacy class variant in
`src/framebuffer.js` instead leaves width/height at 0 on this path.) -/
theorem claim_C4 (env : Bool) (now count : Nat) (w h : Int)
    (hbad : toInt32 w < 1 ∨ 8192 < toInt32 w ∨
      toInt32 h < 1 ∨ 8192 < toInt32 h) :
    (create env now count w h).1.error =
      some (if toInt32 w < 1 ∨ 8192 < toInt32 w then "bad width"
            else "bad height") ∧
    (create env now count w h).1.image = none ∧
    (create env now count w h).1.canvas = none ∧
    (create env now count w h).1.id = count ∧
    (create env now count w h).1.width = toInt32 w ∧
    (create env now count w h).1.height = toInt32 h := by
  simp only [create]
  by_cases hbw : 0 ≥ toInt32 w ∨ toInt32 w > 8192
  · rw [if_pos hbw, if_pos (show toInt32 w < 1 ∨ 8192 < toInt32 w from by omega)]
    exact ⟨rfl, rfl, rfl, rfl, rfl, rfl⟩
  · rw [if_neg hbw, if_pos (show 0 ≥ toInt32 h ∨ toInt32 h > 8192 from by omega),
      if_neg (show ¬(toInt32 w < 1 ∨ 8192 < toInt32 w) from by omega)]
    exact ⟨rfl, rfl, rfl, rfl, rfl, rfl⟩

/-- Claim C4 witness: instantiation at w = 0, h = 5. -/
theorem claim_C4_witness :
    (create true 1 7 0 5).1.error =
      some (if toInt32 0 < 1 ∨ 8192 < toInt32 0 then "bad width"
            else "bad height") ∧
    (create true 1 7 0 5).1.image = none ∧
    (create true 1 7 0 5).1.canvas = none ∧
    (create true 1 7 0 5).1.id = 7 ∧
    (create true 1 7 0 5).1.width = toInt32 0 ∧
    (create true 1 7 0 5).1.height = toInt32 5 :=
  claim_C4 true 1 7 0 5 (by decide)

/-- Claim C2: on an unlocked, error-free resource holding an ImageData of
the canonical w*h*4 size, writing a colour with `setColor` at in-range
coordinates and reading back with `getColor` at the same coordinates returns
exactly the written bytes (both operations address the flat offset
`(width*y + x)*4`), and sets `dirty`; `dirty` stays true until `sync`, which
clears it and leaves every pixel value unchanged. -/
theorem claim_C2 (ci : Resource) (img : ImageData)
    (himg : ci.image = some img)
    (hlen : (img.data.length : Int) = ci.width * ci.height * 4)
    (hw1 : 1 ≤ ci.width) (hw2 : ci.width ≤ 8192)
    (hh1 : 1 ≤ ci.height) (hh2 : ci.height ≤ 8192)
    (hlock : ci.locked = false)
    (x y : Int) (hx1 : 0 ≤ x) (hx2 : x < ci.width)
    (hy1 : 0 ≤ y) (hy2 : y < ci.height)
    (r g b : Nat) (hr : r ≤ 255) (hg : g ≤ 255) (hb : b ≤ 255) (now : Nat) :
    getColor (setColor ci x y r g b) x y = [some r, some g, some b] ∧
    (setColor ci x y r g b).dirty = true ∧
    (sync (setColor ci x y r g b) now).dirty = false ∧
    (sync (setColor ci x y r g b) now).image = (setColor ci x y r g b).image ∧
    getColor (sync (setColor ci x y r g b) now) x y =
      [some r, some g, some b] := by
  have hx32 : toInt32 x = x := toInt32_eq_self x (by omega) (by omega)
  have hy32 : toInt32 y = y := toInt32_eq_self y (by omega) (by omega)
  have hA : 0 ≤ ci.width * y := mul_nonneg (by omega) hy1
  have hwy : ci.width * y ≤ ci.width * (ci.height - 1) :=
    mul_le_mul_of_nonneg_left (by omega) (by omega)
  have hwh : ci.width * (ci.height - 1) = ci.width * ci.height - ci.width := by
    ring
  have hneq : ¬(ci.locked = true) := by simp [hlock]
  have hp0 : 0 ≤ ci.width * y * 4 + x * 4 := by omega
  have hp2 : ci.width * y * 4 + x * 4 + 2 < (img.data.length : Int) := by
    rw [hlen]; omega
  obtain ⟨e0, e1, e2⟩ := tset3_read img.data (ci.width * y * 4 + x * 4)
    (r : Int) (g : Int) (b : Int) hp0 hp2
  rw [clampByte_natCast r hr] at e0
  rw [clampByte_natCast g hg] at e1
  rw [clampByte_natCast b hb] at e2
  have hread : getColor (setColor ci x y r g b) x y =
      [some r, some g, some b] := by
    simp only [setColor, getColor, himg, hx32, hy32, if_neg hneq]
    rw [e0, e1, e2]
  refine ⟨hread, ?_, ?_, ?_, ?_⟩
  · simp only [setColor, himg, if_neg hneq]
  · simp only [sync]
  · simp only [sync]
  · exact hread

/-- Claim C2 witness: a 2x2 resource from `create`, written at (1,1) with
(7,8,9) and read back, then synced at time 3. -/
theorem claim_C2_witness :
    getColor (setColor (create true 1 0 2 2).1 1 1 7 8 9) 1 1 =
      [some 7, some 8, some 9] ∧
    (setColor (create true 1 0 2 2).1 1 1 7 8 9).dirty = true ∧
    (sync (setColor (create true 1 0 2 2).1 1 1 7 8 9) 3).dirty = false ∧
    (sync (setColor (create true 1 0 2 2).1 1 1 7 8 9) 3).image =
      (setColor (create true 1 0 2 2).1 1 1 7 8 9).image ∧
    getColor (sync (setColor (create true 1 0 2 2).1 1 1 7 8 9) 3) 1 1 =
      [some 7, some 8, some 9] :=
  claim_C2 (create true 1 0 2 2).1
    { width := 2, height := 2, data := List.replicate 16 255 }
    rfl (by decide) (by decide) (by decide) (by decide) (by decide) rfl
    1 1 (by decide) (by decide) (by decide) (by decide)
    7 8 9 (by decide) (by decide) (by decide) 3

/-- Claim C3: on a locked resource, `setColor`, `setAlpha` and `clear` are
no-ops returning the resource with every field (including the pixel buffer
and dirty bit) unchanged; and `locked` never alters the behaviour of
`getColor`, `getAlpha`, `sync`, `spawn`, `despawn` or `clone`: each acts on
a locked resource exactly as on its unlocked counterpart (re-locking the
result where the operation returns the resource itself). -/
theorem claim_C3 (ci : Resource) (hl : ci.locked = true)
    (x y r g b a : Int) (c p : Option Nat) (e env : Bool) (now count : Nat) :
    setColor ci x y r g b = ci ∧
    setAlpha ci x y a = ci ∧
    clear ci r g b = ci ∧
    getColor ci x y = getColor (unlock ci) x y ∧
    getAlpha ci x y = getAlpha (unlock ci) x y ∧
    sync ci now = lock (sync (unlock ci) now) ∧
    spawn ci c e = lock (spawn (unlock ci) c e) ∧
    despawn ci p = lock (despawn (unlock ci) p) ∧
    clone ci env now count = clone (unlock ci) env now count := by
  obtain ⟨i0, w0, h0, cv0, cx0, im0, cr0, up0, pa0, re0, lo0, di0, er0, co0,
    sp0⟩ := ci
  have hl0 : lo0 = true := hl
  subst hl0
  refine ⟨?_, ?_, ?_, rfl, rfl, ?_, ?_, ?_, rfl⟩
  · simp [setColor]
  · simp [setAlpha]
  · simp [clear]
  · simp [sync, lock, unlock]
  · simp only [spawn, lock, unlock]
    split_ifs <;> rfl
  · simp only [despawn, lock, unlock]
    split_ifs <;> rfl

/-- Claim C3 witness: a locked 1x1 resource with concrete arguments. -/
theorem claim_C3_witness :
    setColor (lock (create true 1 0 1 1).1) 0 0 1 2 3 =
      lock (create true 1 0 1 1).1 ∧
    setAlpha (lock (create true 1 0 1 1).1) 0 0 4 =
      lock (create true 1 0 1 1).1 ∧
    clear (lock (create true 1 0 1 1).1) 1 2 3 =
      lock (create true 1 0 1 1).1 ∧
    getColor (lock (create true 1 0 1 1).1) 0 0 =
      getColor (unlock (lock (create true 1 0 1 1).1)) 0 0 ∧
    getAlpha (lock (create true 1 0 1 1).1) 0 0 =
      getAlpha (unlock (lock (create true 1 0 1 1).1)) 0 0 ∧
    sync (lock (create true 1 0 1 1).1) 2 =
      lock (sync (unlock (lock (create true 1 0 1 1).1)) 2) ∧
    spawn (lock (create true 1 0 1 1).1) none false =
      lock (spawn (unlock (lock (create true 1 0 1 1).1)) none false) ∧
    despawn (lock (create true 1 0 1 1).1) none =
      lock (despawn (unlock (lock (create true 1 0 1 1).1)) none) ∧
    clone (lock (create true 1 0 1 1).1) true 2 1 =
      clone (unlock (lock (create true 1 0 1 1).1)) true 2 1 :=
  claim_C3 (lock (create true 1 0 1 1).1) rfl 0 0 1 2 3 4 none none false
    true 2 1

/-- Claim C8: on an unlocked resource holding an ImageData, `clear(r,g,b)`
overwrites the R, G and B bytes of every pixel with r, g, b, leaves every
pixel's alpha byte unchanged, and leaves `dirty`, `updated` and the surface
contents untouched (it neither marks dirty nor synchronizes). -/
theorem claim_C8 (ci : Resource) (img : ImageData)
    (himg : ci.image = some img) (hlock : ci.locked = false)
    (r g b : Nat) (hr : r ≤ 255) (hg : g ≤ 255) (hb : b ≤ 255) :
    (clear ci r g b).dirty = ci.dirty ∧
    (clear ci r g b).updated = ci.updated ∧
    (clear ci r g b).canvas = ci.canvas ∧
    (∃ img', (clear ci r g b).image = some img' ∧
      img'.data.length = img.data.length ∧
      ∀ p : Nat, 4 * p + 3 < img.data.length →
        img'.data[4 * p]? = some r ∧
        img'.data[4 * p + 1]? = some g ∧
        img'.data[4 * p + 2]? = some b ∧
        img'.data[4 * p + 3]? = img.data[4 * p + 3]?) := by
  have hneq : ¬(ci.locked = true) := by simp [hlock]
  simp only [clear, himg, if_neg hneq]
  refine ⟨by trivial, by trivial, by trivial, ?_⟩
  refine ⟨_, rfl, clearLoop_length _ _ _ _ _ _, ?_⟩
  intro p hp
  have hchar := fun j => clearLoop_getElem img.data.length img.data
    (r : Int) (g : Int) (b : Int) 0 j (by omega) (by omega)
  refine ⟨?_, ?_, ?_, ?_⟩
  · rw [hchar (4 * p), if_pos (by omega)]
    rw [if_pos (by omega), clampByte_natCast r hr]
  · rw [hchar (4 * p + 1), if_pos (by omega)]
    rw [if_neg (by omega), if_pos (by omega), clampByte_natCast g hg]
  · rw [hchar (4 * p + 2), if_pos (by omega)]
    rw [if_neg (by omega), if_neg (by omega), clampByte_natCast b hb]
  · rw [hchar (4 * p + 3), if_neg (by omega)]

/-- Claim C8 witness: a 1x2 resource cleared with (1,2,3). -/
theorem claim_C8_witness :
    (clear (create true 1 0 1 2).1 1 2 3).dirty =
      (create true 1 0 1 2).1.dirty ∧
    (clear (create true 1 0 1 2).1 1 2 3).updated =
      (create true 1 0 1 2).1.updated ∧
    (clear (create true 1 0 1 2).1 1 2 3).canvas =
      (create true 1 0 1 2).1.canvas ∧
    (∃ img', (clear (create true 1 0 1 2).1 1 2 3).image = some img' ∧
      img'.data.length = (List.replicate 8 255 : List Nat).length ∧
      ∀ p : Nat, 4 * p + 3 < (List.replicate 8 255 : List Nat).length →
        img'.data[4 * p]? = some 1 ∧
        img'.data[4 * p + 1]? = some 2 ∧
        img'.data[4 * p + 2]? = some 3 ∧
        img'.data[4 * p + 3]? = (List.replicate 8 255 : List Nat)[4 * p + 3]?) :=
  claim_C8 (create true 1 0 1 2).1
    { width := 1, height := 2, data := List.replicate 8 255 }
    rfl rfl 1 2 3 (by decide) (by decide) (by decide)

/-- Claim C10: on an unlocked resource holding an ImageData, coordinates
whose computed flat offset `width*(y|0)*4 + (x|0)*4` falls outside
[0, buffer length) leave every byte of the pixel buffer unchanged under
`setColor` and `setAlpha` (out-of-range typed-array writes are discarded),
yet still set `dirty = true` and return the resource; `getColor` and
`getAlpha` at such coordinates return no stored byte (`none`, the embedding
of JS undefined). -/
theorem claim_C10 (ci : Resource) (img : ImageData)
    (himg : ci.image = some img) (hlock : ci.locked = false)
    (x y r g b a : Int)
    (hpos : ci.width * toInt32 y * 4 + toInt32 x * 4 < 0 ∨
      (img.data.length : Int) ≤ ci.width * toInt32 y * 4 + toInt32 x * 4) :
    setColor ci x y r g b = { ci with dirty := true } ∧
    setAlpha ci x y a = { ci with dirty := true } ∧
    getColor ci x y = [none, none, none] ∧
    getAlpha ci x y = none := by
  have hneq : ¬(ci.locked = true) := by simp [hlock]
  have h4 : (4 : Int) ∣ ci.width * toInt32 y * 4 + toInt32 x * 4 :=
    ⟨ci.width * toInt32 y + toInt32 x, by ring⟩
  have hoobW : ∀ k : Int, 0 ≤ k → k ≤ 3 →
      (ci.width * toInt32 y * 4 + toInt32 x * 4 + k < 0 ∨
        (img.data.length : Int) ≤
          ci.width * toInt32 y * 4 + toInt32 x * 4 + k) := by
    intro k hk0 hk3
    rcases hpos with hc | hc
    · left; omega
    · right; omega
  have hoobR : ∀ k : Int, 0 ≤ k → k ≤ 3 →
      tget img.data (ci.width * toInt32 y * 4 + toInt32 x * 4 + k) = none := by
    intro k hk0 hk3
    rcases hoobW k hk0 hk3 with hc | hc
    · exact tget_neg _ _ hc
    · exact tget_ge _ _ hc
  refine ⟨?_, ?_, ?_, ?_⟩
  · simp only [setColor, himg, if_neg hneq]
    rw [tset_oob img.data _ r (hoobW 0 (by omega) (by omega)),
      tset_oob img.data _ g (hoobW 1 (by omega) (by omega)),
      tset_oob img.data _ b (hoobW 2 (by omega) (by omega)), ← himg]
  · simp only [setAlpha, himg, if_neg hneq]
    rw [tset_oob img.data _ a (hoobW 3 (by omega) (by omega)), ← himg]
  · simp only [getColor, himg]
    rw [hoobR 0 (by omega) (by omega), hoobR 1 (by omega) (by omega),
      hoobR 2 (by omega) (by omega)]
  · simp only [getAlpha, himg]
    rw [hoobR 3 (by omega) (by omega)]

/-- Claim C10 witness: a 1x1 resource accessed at (5,0), flat offset 20. -/
theorem claim_C10_witness :
    setColor (create true 1 0 1 1).1 5 0 7 8 9 =
      { (create true 1 0 1 1).1 with dirty := true } ∧
    setAlpha (create true 1 0 1 1).1 5 0 7 =
      { (create true 1 0 1 1).1 with dirty := true } ∧
    getColor (create true 1 0 1 1).1 5 0 = [none, none, none] ∧
    getAlpha (create true 1 0 1 1).1 5 0 = none :=
  claim_C10 (create true 1 0 1 1).1
    { width := 1, height := 1, data := List.replicate 4 255 }
    rfl rfl 5 0 7 8 9 7 (by decide)

/-- Claim C5: an issued load (non-null path) that terminates unsuccessfully:
on fetch failure the resource ends with `error = "failed to load image"`,
`ready` still false and `locked` still true, and the callback is invoked
with it; on read-back failure after a successful fetch it ends with
`ready = false`, `error` set to the underlying failure message, `locked`
left true (not unlocked), and the callback is invoked with it. -/
theorem claim_C5 (now count : Nat) (p : String) (w h : Int) (msg : String) :
    (∃ r, load_run true now count (some p) LoadOutcome.fetchFail =
        some (r, true, count + 1) ∧
      r.error = some "failed to load image" ∧ r.ready = false ∧
      r.locked = true) ∧
    (∃ r, load_run true now count (some p)
        (LoadOutcome.loadEvent w h (Except.error msg)) =
        some (r, true, count + 1) ∧
      r.ready = false ∧ r.error = some msg ∧ r.locked = true) :=
  ⟨⟨_, rfl, rfl, rfl, rfl⟩, ⟨_, rfl, rfl, rfl, rfl⟩⟩

/-- Claim C6: cloning an error-free resource yields a resource with the same
dimensions, a pixel buffer equal byte-for-byte to the source's, an id fresh
from the counter (distinct from every previously issued id, in particular
the source's), with the counter advanced once; the source resource is
unaffected, and in the buffer-heap model the clone's buffer is a fresh
allocation, so mutating any pixel of the clone leaves every byte of the
source's buffer unchanged. -/
theorem claim_C6 (ci : Resource) (img : ImageData)
    (himg : ci.image = some img)
    (hlen : (img.data.length : Int) = ci.width * ci.height * 4)
    (hw1 : 1 ≤ ci.width) (hw2 : ci.width ≤ 8192)
    (hh1 : 1 ≤ ci.height) (hh2 : ci.height ≤ 8192)
    (hbytes : ∀ v ∈ img.data, v ≤ 255)
    (now count : Nat) (hid : ci.id < count) :
    (clone ci true now count).1.width = ci.width ∧
    (clone ci true now count).1.height = ci.height ∧
    (clone ci true now count).1.id = count ∧
    (clone ci true now count).1.id ≠ ci.id ∧
    (clone ci true now count).2 = count + 1 ∧
    (∃ img', (clone ci true now count).1.image = some img' ∧
      img'.data = img.data) ∧
    (∀ (hp : Heap) (src : HRes), src.bufId < hp.bufs.length →
      (cloneH hp src).2.bufId ≠ src.bufId ∧
      readBuf (cloneH hp src).1 src.bufId = readBuf hp src.bufId ∧
      (∀ x y cr cg cb : Int,
        readBuf (setColorH (cloneH hp src).1 (cloneH hp src).2 x y cr cg cb)
          src.bufId = readBuf hp src.bufId) ∧
      (∀ x y a : Int,
        readBuf (setAlphaH (cloneH hp src).1 (cloneH hp src).2 x y a)
          src.bufId = readBuf hp src.bufId)) := by
  have hN : (ci.width * ci.height * 4).toNat = img.data.length := by omega
  have hdata : cloneLoop img.data.length img.data
      (List.replicate (ci.width * ci.height * 4).toNat 255) 0 = img.data := by
    apply List.ext_getElem?
    intro j
    rw [cloneLoop_getElem img.data.length img.data _ 0 j (by omega)
      (by rw [List.length_replicate, hN]) hbytes]
    by_cases hj : j < img.data.length
    · rw [if_pos (by omega)]
    · rw [if_neg (by omega), List.getElem?_replicate,
        if_neg (by omega), List.getElem?_eq_none (by omega)]
  refine ⟨?_, ?_, ?_, ?_, ?_, ?_, ?_⟩
  · simp only [clone, create_ok now count ci.width ci.height hw1 hw2 hh1 hh2,
      himg, sync]
  · simp only [clone, create_ok now count ci.width ci.height hw1 hw2 hh1 hh2,
      himg, sync]
  · simp only [clone, create_ok now count ci.width ci.height hw1 hw2 hh1 hh2,
      himg, sync]
  · simp only [clone, create_ok now count ci.width ci.height hw1 hw2 hh1 hh2,
      himg, sync]
    omega
  · simp only [clone, create_ok now count ci.width ci.height hw1 hw2 hh1 hh2,
      himg, sync]
  · simp only [clone, create_ok now count ci.width ci.height hw1 hw2 hh1 hh2,
      himg, sync]
    exact ⟨_, rfl, hdata⟩
  · intro hp src hlt
    have hne : hp.bufs.length ≠ src.bufId := by omega
    have hr1 : readBuf (cloneH hp src).1 src.bufId = readBuf hp src.bufId := by
      simp only [cloneH, createH]
      rw [readBuf_writeBuf_ne _ _ _ _ hne]
      simp only [readBuf]
      rw [List.getElem?_append, if_pos hlt]
    refine ⟨by simp only [cloneH, createH]; omega, hr1, ?_, ?_⟩
    · intro x y cr cg cb
      have hcb : (cloneH hp src).2.bufId = hp.bufs.length := by
        simp only [cloneH, createH]
      rw [setColorH, readBuf_writeBuf_ne _ _ _ _ (by omega), hr1]
    · intro x y a
      have hcb : (cloneH hp src).2.bufId = hp.bufs.length := by
        simp only [cloneH, createH]
      rw [setAlphaH, readBuf_writeBuf_ne _ _ _ _ (by omega), hr1]

/-- Claim C6 witness: cloning a 2x1 resource created at counter 0, with the
clone drawn at counter 1. -/
theorem claim_C6_witness :
    (clone (create true 1 0 2 1).1 true 2 1).1.width =
      (create true 1 0 2 1).1.width ∧
    (clone (create true 1 0 2 1).1 true 2 1).1.height =
      (create true 1 0 2 1).1.height ∧
    (clone (create true 1 0 2 1).1 true 2 1).1.id = 1 ∧
    (clone (create true 1 0 2 1).1 true 2 1).1.id ≠
      (create true 1 0 2 1).1.id ∧
    (clone (create true 1 0 2 1).1 true 2 1).2 = 1 + 1 ∧
    (∃ img', (clone (create true 1 0 2 1).1 true 2 1).1.image = some img' ∧
      img'.data = List.replicate 8 255) ∧
    (∀ (hp : Heap) (src : HRes), src.bufId < hp.bufs.length →
      (cloneH hp src).2.bufId ≠ src.bufId ∧
      readBuf (cloneH hp src).1 src.bufId = readBuf hp src.bufId ∧
      (∀ x y cr cg cb : Int,
        readBuf (setColorH (cloneH hp src).1 (cloneH hp src).2 x y cr cg cb)
          src.bufId = readBuf hp src.bufId) ∧
      (∀ x y a : Int,
        readBuf (setAlphaH (cloneH hp src).1 (cloneH hp src).2 x y a)
          src.bufId = readBuf hp src.bufId)) :=
  claim_C6 (create true 1 0 2 1).1
    { width := 2, height := 1, data := List.replicate 8 255 }
    rfl (by decide) (by decide) (by decide) (by decide) (by decide)
    (fun v hv => by rw [List.eq_of_mem_replicate hv]) 2 1 (by decide)

/-- Claim C7 counterexample: the claim says `getChannel(c)` clamps every
channel argument outside [0,3] to the nearest bound.  The code first
truncates with `|0`: at c = 4294967297 (= 2^32 + 1) the selected channel is
`(c|0)` clamped = 1 (green), not the claimed clamp 3 (alpha).  On a 1x1
resource with pixel (10,20,30,255) the result's red byte is the green value
20, whereas clamping to channel 3 would give the alpha value 255. -/
theorem claim_C7_counterexample :
    chanIndex 4294967297 = 1 ∧
    clampChannelSpec 4294967297 = 3 ∧
    (1 : Int) ≠ 3 ∧
    (getChannel (setColor (create true 1 0 1 1).1 0 0 10 20 30) 4294967297
        true 2 1).1.image =
      some { width := 1, height := 1, data := [20, 20, 20, 255] } ∧
    (setColor (create true 1 0 1 1).1 0 0 10 20 30).image =
      some { width := 1, height := 1, data := [10, 20, 30, 255] } ∧
    (20 : Nat) ≠ 255 := by
  refine ⟨by decide, by decide, by decide, by decide, by decide, by decide⟩

/-- Claim C7 as amended: `getChannel(c)` first truncates c to a 32-bit
integer (the `|0` coercion) and then clamps the result to [0,3] to the
nearest bound; it returns a new same-size resource in which, for every
pixel, R = G = B = the source's byte in the selected channel and the alpha
byte is fully opaque (255), synchronized before return (`dirty = false`,
`updated` stamped); for c in {0,1,2,3} the selected channel is exactly c. -/
theorem claim_C7_amended (ci : Resource) (img : ImageData)
    (himg : ci.image = some img)
    (hlen : (img.data.length : Int) = ci.width * ci.height * 4)
    (hw1 : 1 ≤ ci.width) (hw2 : ci.width ≤ 8192)
    (hh1 : 1 ≤ ci.height) (hh2 : ci.height ≤ 8192)
    (hbytes : ∀ v ∈ img.data, v ≤ 255)
    (channel : Int) (now count : Nat) :
    (getChannel ci channel true now count).1.width = ci.width ∧
    (getChannel ci channel true now count).1.height = ci.height ∧
    (getChannel ci channel true now count).1.dirty = false ∧
    (getChannel ci channel true now count).1.updated = now ∧
    chanIndex channel = clampChannelSpec (toInt32 channel) ∧
    (0 ≤ channel → channel ≤ 3 → chanIndex channel = channel) ∧
    (∃ img', (getChannel ci channel true now count).1.image = some img' ∧
      img'.data.length = img.data.length ∧
      ∀ p : Nat, 4 * p + 3 < img.data.length →
        img'.data[4 * p]? =
          img.data[4 * p + (chanIndex channel).toNat]? ∧
        img'.data[4 * p + 1]? =
          img.data[4 * p + (chanIndex channel).toNat]? ∧
        img'.data[4 * p + 2]? =
          img.data[4 * p + (chanIndex channel).toNat]? ∧
        img'.data[4 * p + 3]? = some 255) := by
  have hsel0 : 0 ≤ chanIndex channel := by
    simp only [chanIndex]
    split_ifs <;> omega
  have hsel3 : chanIndex channel ≤ 3 := by
    simp only [chanIndex]
    split_ifs <;> omega
  have hN : (ci.width * ci.height * 4).toNat = img.data.length := by omega
  refine ⟨?_, ?_, ?_, ?_, ?_, ?_, ?_⟩
  · simp only [getChannel,
      create_ok now count ci.width ci.height hw1 hw2 hh1 hh2, himg, sync]
  · simp only [getChannel,
      create_ok now count ci.width ci.height hw1 hw2 hh1 hh2, himg, sync]
  · simp only [getChannel,
      create_ok now count ci.width ci.height hw1 hw2 hh1 hh2, himg, sync]
  · simp only [getChannel,
      create_ok now count ci.width ci.height hw1 hw2 hh1 hh2, himg, sync]
  · simp only [chanIndex, clampChannelSpec]
    split_ifs <;> omega
  · intro hc0 hc3
    have ht : toInt32 channel = channel :=
      toInt32_eq_self channel (by omega) (by omega)
    simp only [chanIndex, ht]
    rw [if_neg (by omega), if_neg (by omega)]
  · simp only [getChannel,
      create_ok now count ci.width ci.height hw1 hw2 hh1 hh2, himg, sync]
    refine ⟨_, rfl, ?_, ?_⟩
    · rw [channelLoop_length, List.length_replicate, hN]
    · intro p hp
      have hchar := fun j => channelLoop_getElem
        (List.replicate (ci.width * ci.height * 4).toNat 255).length img.data
        (List.replicate (ci.width * ci.height * 4).toNat 255)
        (chanIndex channel) 0 j
        (by simp only [List.length_replicate]; omega) (by omega)
      simp only [List.length_replicate, hN] at hchar
      refine ⟨?_, ?_, ?_, ?_⟩
      · simp only [List.length_replicate, hN]
        rw [hchar (4 * p), if_pos (by omega)]
        exact clamp_tget_byte img.data _ (4 * p + (chanIndex channel).toNat)
          (by omega) (by omega) hbytes
      · simp only [List.length_replicate, hN]
        rw [hchar (4 * p + 1), if_pos (by omega)]
        exact clamp_tget_byte img.data _ (4 * p + (chanIndex channel).toNat)
          (by omega) (by omega) hbytes
      · simp only [List.length_replicate, hN]
        rw [hchar (4 * p + 2), if_pos (by omega)]
        exact clamp_tget_byte img.data _ (4 * p + (chanIndex channel).toNat)
          (by omega) (by omega) hbytes
      · simp only [List.length_replicate, hN]
        rw [hchar (4 * p + 3), if_neg (by omega), List.getElem?_replicate,
          if_pos (by omega)]

/-- Claim C7 amended witness: channel extraction at c = 1 on a 1x1 resource
with pixel (10,20,30,255). -/
theorem claim_C7_amended_witness :
    (getChannel (setColor (create true 1 0 1 1).1 0 0 10 20 30) 1 true 2
        1).1.width = (setColor (create true 1 0 1 1).1 0 0 10 20 30).width ∧
    (getChannel (setColor (create true 1 0 1 1).1 0 0 10 20 30) 1 true 2
        1).1.height = (setColor (create true 1 0 1 1).1 0 0 10 20 30).height ∧
    (getChannel (setColor (create true 1 0 1 1).1 0 0 10 20 30) 1 true 2
        1).1.dirty = false ∧
    (getChannel (setColor (create true 1 0 1 1).1 0 0 10 20 30) 1 true 2
        1).1.updated = 2 ∧
    chanIndex 1 = clampChannelSpec (toInt32 1) ∧
    (0 ≤ (1 : Int) → (1 : Int) ≤ 3 → chanIndex 1 = 1) ∧
    (∃ img', (getChannel (setColor (create true 1 0 1 1).1 0 0 10 20 30) 1
        true 2 1).1.image = some img' ∧
      img'.data.length = ([10, 20, 30, 255] : List Nat).length ∧
      ∀ p : Nat, 4 * p + 3 < ([10, 20, 30, 255] : List Nat).length →
        img'.data[4 * p]? =
          ([10, 20, 30, 255] : List Nat)[4 * p + (chanIndex 1).toNat]? ∧
        img'.data[4 * p + 1]? =
          ([10, 20, 30, 255] : List Nat)[4 * p + (chanIndex 1).toNat]? ∧
        img'.data[4 * p + 2]? =
          ([10, 20, 30, 255] : List Nat)[4 * p + (chanIndex 1).toNat]? ∧
        img'.data[4 * p + 3]? = some 255) :=
  claim_C7_amended (setColor (create true 1 0 1 1).1 0 0 10 20 30)
    { width := 1, height := 1, data := [10, 20, 30, 255] }
    (by decide) (by decide) (by decide) (by decide) (by decide) (by decide)
    (by decide) 1 2 1

/-- Claim C9: every `create` call increments the factory counter exactly
once, on success and on every failure path, and assigns `id` from the
counter before validation; over any sequence of calls the ids are the
consecutive range starting at the initial counter, hence pairwise distinct,
with no value reused or skipped. -/
theorem claim_C9 (env : Bool) (now count : Nat) (w h : Int)
    (reqs : List (Int × Int)) :
    (create env now count w h).2 = count + 1 ∧
    (create env now count w h).1.id = count ∧
    (createSeq env now count reqs).1.map (fun r => r.id) =
      List.range' count reqs.length ∧
    ((createSeq env now count reqs).1.map (fun r => r.id)).Nodup := by
  have hids : ∀ (c : Nat) (rs : List (Int × Int)),
      (createSeq env now c rs).1.map (fun r => r.id) =
        List.range' c rs.length := by
    intro c rs
    induction rs generalizing c with
    | nil => rfl
    | cons q rest ih =>
      obtain ⟨qw, qh⟩ := q
      simp only [createSeq, List.map_cons, List.length_cons, List.range']
      rw [create_id, create_snd, ih (c + 1)]
  refine ⟨create_snd env now count w h, create_id env now count w h,
    hids count reqs, ?_⟩
  rw [hids count reqs]
  exact List.nodup_range' count reqs.length

end CanvasImage
